import Mathlib

/-!
Verification of the command-interpretation and device-control core of
`smart_home_assistant.py`.

The embedding models the data and operations the claims concern: the device
registry, the context power accounting, the response cache, the fallback
pattern matcher, batch device control, scene activation and the
command-understanding pipeline.  The language-model collaborator is an oracle
parameter (`Option Intent`, the result of parsing its response); timestamps
are abstract naturals supplied by the caller (`datetime.now()` is external).
Python floats are modelled as rationals: every quantity the claims touch is a
sum of integral per-device wattages, on which float and rational arithmetic
agree.
-/

section SmartHome

attribute [local semireducible] Rat.add Rat.sub Rat.mul Rat.inv

/-- Enumeration `DeviceType` from the source (enumeration of device categories). -/
inductive DeviceType where
  | light | fan | heater | ac | door_lock | curtain | outlet | alarm | sensor
deriving DecidableEq

/-- Dataclass `Device` from the source, field for field.  `last_changed` is an
abstract timestamp. -/
structure Device where
  name : String
  pin : Nat
  device_type : DeviceType
  state : Bool
  aliases : List String
  room : String
  power_consumption : ℚ
  schedule : List (String × String)
  last_changed : Nat
deriving DecidableEq

/-- The device registry built by `_init_devices`, in Python dict insertion
order.  All devices start with `state = False` and an initial timestamp. -/
def initialDevices : List Device := [
  ⟨"living_room_light", 7, .light, false,
    ["living room light", "main light", "lounge light"], "living_room", 60, [], 0⟩,
  ⟨"living_room_fan", 11, .fan, false,
    ["living room fan", "main fan"], "living_room", 75, [], 0⟩,
  ⟨"bedroom_light", 13, .light, false,
    ["bedroom light", "bed light"], "bedroom", 40, [], 0⟩,
  ⟨"bedroom_ac", 15, .ac, false,
    ["bedroom ac", "bedroom air conditioner"], "bedroom", 1200, [], 0⟩,
  ⟨"bedroom_heater", 31, .heater, false,
    ["heater", "bedroom heater"], "bedroom", 1500, [], 0⟩,
  ⟨"kitchen_light", 16, .light, false,
    ["kitchen light"], "kitchen", 80, [], 0⟩,
  ⟨"kitchen_exhaust", 18, .fan, false,
    ["exhaust fan", "kitchen fan"], "kitchen", 30, [], 0⟩,
  ⟨"front_door_lock", 22, .door_lock, false,
    ["front door", "main door", "door lock"], "entrance", 5, [], 0⟩,
  ⟨"security_alarm", 24, .alarm, false,
    ["alarm", "security"], "general", 10, [], 0⟩,
  ⟨"garden_light", 26, .light, false,
    ["garden", "outdoor light", "yard light"], "outdoor", 100, [], 0⟩,
  ⟨"smart_outlet_1", 29, .outlet, false,
    ["outlet 1", "plug 1"], "general", 0, [], 0⟩]

/-- A scene from `_init_automation_rules`: name, device-to-state pairs in dict
order, description. -/
structure Scene where
  name : String
  devices : List (String × Bool)
  description : String
deriving DecidableEq

/-- The scene table from `_init_automation_rules`, in dict insertion order. -/
def scenes : List Scene := [
  ⟨"movie_night",
    [("living_room_light", false), ("kitchen_light", false), ("living_room_fan", true)],
    "Dims lights for movie watching"⟩,
  ⟨"dinner",
    [("kitchen_light", true), ("kitchen_exhaust", true), ("living_room_light", true)],
    "Bright kitchen for cooking"⟩,
  ⟨"sleep",
    [("bedroom_light", false), ("bedroom_ac", true), ("living_room_light", false),
     ("kitchen_light", false), ("garden_light", false), ("security_alarm", true)],
    "Nighttime sleep mode"⟩,
  ⟨"wake_up",
    [("bedroom_light", true), ("kitchen_light", true), ("security_alarm", false)],
    "Morning wake up routine"⟩,
  ⟨"away",
    [("all_lights", false), ("security_alarm", true), ("front_door_lock", true)],
    "Security mode when away"⟩]

/-- Value `self.thresholds['power_limit']` (Watts). -/
def power_limit : ℚ := 3000

/-- An action dictionary as produced by `understand_command` /
`_fast_pattern_match`.  Absent dict keys are modelled by `none` / `[]`, and
the absent `from_cache` key by `false`. -/
structure Intent where
  intent : String
  devices : List String
  scene : Option String
  value : Option String
  confidence : ℚ
  reasoning : String
  raw_input : Option String
  from_cache : Bool
deriving DecidableEq

/-- The mutable state the claims touch: the device registry (a Python dict in
insertion order), `context['power_usage']`, `response_cache` (a dict in
insertion order) and the cache hit/miss counters. -/
structure AState where
  devices : List Device
  power_usage : ℚ
  response_cache : List (String × Intent)
  cache_hits : Nat
  cache_misses : Nat
deriving DecidableEq

/-- Initial assistant state: fresh registry, `power_usage = 0.0`, empty cache. -/
def initState : AState := ⟨initialDevices, 0, [], 0, 0⟩

/-- Prefix test on character lists (kernel-reducible). -/
def listPre : List Char → List Char → Bool
  | [], _ => true
  | _ :: _, [] => false
  | a :: as, b :: bs => a = b && listPre as bs

/-- Infix test on character lists (kernel-reducible). -/
def listSub (pat : List Char) : List Char → Bool
  | [] => pat.isEmpty
  | c :: rest => listPre pat (c :: rest) || listSub pat rest

/-- Python's `pat in text` substring test. -/
def containsSub (text pat : String) : Bool := listSub pat.toList text.toList

/-- Python `s.replace('_', ' ')` (single-character pattern, so a char map). -/
def underscoresToSpaces (s : String) : String :=
  ⟨s.toList.map (fun c => if c = '_' then ' ' else c)⟩

/-- Python `str.lower()` (kernel-reducible form of `String.toLower`). -/
def lowerStr (s : String) : String := ⟨s.toList.map Char.toLower⟩

/-- The whitespace set stripped by Python `str.strip()`. -/
def pyIsSpace (c : Char) : Bool :=
  c = ' ' || c = '\t' || c = '\n' || c = '\r' || c = Char.ofNat 11 || c = Char.ofNat 12

/-- Python `str.strip()`. -/
def trimStr (s : String) : String :=
  ⟨((s.toList.dropWhile pyIsSpace).reverse.dropWhile pyIsSpace).reverse⟩

/-- Python `', '.join(parts)` (kernel-reducible). -/
def joinComma : List String → String
  | [] => ""
  | [x] => x
  | x :: y :: rest => x ++ ", " ++ joinComma (y :: rest)

/-- A single-quote character, used in report strings. -/
def squote : String := String.singleton (Char.ofNat 39)

/-- Python `abs`. -/
def pyAbs (q : ℚ) : ℚ := if q < 0 then -q else q

/-- Floor of a rational (kernel-reducible). -/
def pyFloor (q : ℚ) : ℤ := Int.fdiv q.num q.den

/-- Python round-half-even to an integer, as used by the `:.0f` format on the
integral wattage values of this program. -/
def pyRound (q : ℚ) : ℤ :=
  if q - pyFloor q < 1/2 then pyFloor q
  else if 1/2 < q - pyFloor q then pyFloor q + 1
  else if pyFloor q % 2 = 0 then pyFloor q else pyFloor q + 1

/-- Python `f-string` format `:.0f`. -/
def fmt0f (q : ℚ) : String := toString (pyRound q)

/-- Python `f-string` format `:+.0f` (explicit sign). -/
def fmtPlus0f (q : ℚ) : String :=
  if 0 ≤ pyRound q then "+" ++ toString (pyRound q) else toString (pyRound q)

/-- The warning appended by `_control_devices` when the updated power usage
exceeds the limit. -/
def warnText (q : ℚ) : String :=
  "\n⚠️  Warning: Power usage (" ++ fmt0f q ++ "W) exceeds limit!"

/-- Signed power delta of one device transition (`+draw` on, `-draw` off). -/
def flipQ (b : Bool) (p : ℚ) : ℚ := if b then p else -p

/-- The loop body of `_control_devices`: walk the requested names, flip every
known device not already in the target state, collecting the display names of
changed devices and the net power delta.  Returns (updated registry, changed
display names, net power delta). -/
def controlAux (b : Bool) (now : Nat) :
    List String → List Device → List Device × List String × ℚ
  | [], devs => (devs, [], 0)
  | n :: ns, devs =>
    match devs.find? (fun d => decide (d.name = n)) with
    | none => controlAux b now ns devs
    | some d =>
      if d.state = b then controlAux b now ns devs
      else
        let devs2 := devs.map (fun e =>
          if e.name = n then { e with state := b, last_changed := now } else e)
        let r := controlAux b now ns devs2
        (r.1, underscoresToSpaces n :: r.2.1, flipQ b d.power_consumption + r.2.2)

/-- Function `_control_devices(device_names, state)`: applies the transitions, then (only
if anything changed) commits the power delta and builds the report, appending
the power-change note for large deltas and the advisory power-limit warning. -/
def controlDevices (names : List String) (b : Bool) (now : Nat) (s : AState) :
    String × AState :=
  let r := controlAux b now names s.devices
  if r.2.1.isEmpty then ("No devices were changed.", { s with devices := r.1 })
  else
    let power2 := s.power_usage + r.2.2
    let response := "Turned " ++ (if b then "on" else "off") ++ ": " ++ joinComma r.2.1
    let response := if 100 < pyAbs r.2.2
      then response ++ " (Power change: " ++ fmtPlus0f r.2.2 ++ "W)" else response
    let response := if power_limit < power2 then response ++ warnText power2 else response
    (response, { s with devices := r.1, power_usage := power2 })

/-- The `'all'` / `'everything'` / `'entire'` keywords checked (as plain
substrings) by `_extract_devices_from_text`. -/
def allWords : List String := ["all", "everything", "entire"]

/-- Function `_extract_devices_from_text(text)`: the group-keyword branch first, then a
scan of device names (underscores as spaces) and aliases as substrings. -/
def extractDevices (devs : List Device) (text : String) : List String :=
  if allWords.any (fun w => containsSub text w) then
    if containsSub text "light" then
      (devs.filter (fun d => decide (d.device_type = DeviceType.light))).map (fun d => d.name)
    else devs.map (fun d => d.name)
  else
    (devs.filter (fun d =>
      (underscoresToSpaces d.name :: d.aliases).any (fun kw => containsSub text kw))).map
      (fun d => d.name)

/-- Keyword list `patterns['turn_on']` from `_fast_pattern_match`. -/
def turnOnKws : List String := ["turn on", "switch on", "enable", "activate"]

/-- Keyword list `patterns['turn_off']`. -/
def turnOffKws : List String := ["turn off", "switch off", "disable", "deactivate", "kill"]

/-- Keyword list `patterns['toggle']`. -/
def toggleKws : List String := ["toggle", "flip"]

/-- The `patterns` dict of `_fast_pattern_match`, in insertion order. -/
def patternsList : List (String × List String) :=
  [("turn_on", turnOnKws), ("turn_off", turnOffKws), ("toggle", toggleKws)]

/-- The `room_keywords` dict of `_fast_pattern_match`, in insertion order. -/
def roomKeywords : List (String × String) :=
  [("living room", "living_room"), ("bedroom", "bedroom"), ("kitchen", "kitchen"),
   ("garden", "outdoor"), ("outside", "outdoor")]

/-- Mapping `self.devices_by_room[room]` (names of devices in the room, registry order). -/
def roomDevicesOf (devs : List Device) (room : String) : List String :=
  (devs.filter (fun d => decide (d.room = room))).map (fun d => d.name)

/-- The light-only restriction of `devices_by_room[room]` used by the
room branch of `_fast_pattern_match`. -/
def roomLightsOf (devs : List Device) (room : String) : List String :=
  (devs.filter (fun d =>
    decide (d.room = room) && decide (d.device_type = DeviceType.light))).map
    (fun d => d.name)

/-- Status-check keywords of `_fast_pattern_match` (the second one is
`what's on`). -/
def statusKeywords : List String := ["status", "what" ++ squote ++ "s on", "check", "show"]

/-- The default action returned by `_fast_pattern_match` when no pattern
matches. -/
def unknownIntent : Intent :=
  ⟨"unknown", [], none, none, Rat.normalize 1 10 (by decide), "No pattern matched", none, false⟩

/-- Function `_fast_pattern_match(user_input, is_fallback)`, clause for clause:
scene-name substring match, then keyword patterns with device extraction,
then room-based commands, then temperature feelings, then status check,
else `unknown`. -/
def fast_pattern_match (devs : List Device) (user_input : String) (is_fallback : Bool) :
    Intent :=
  let text := lowerStr user_input
  let conf : ℚ := if is_fallback then Rat.normalize 1 2 (by decide) else 1
  match scenes.find? (fun sc => containsSub text (underscoresToSpaces sc.name)) with
  | some sc =>
    ⟨"activate_scene", [], some sc.name, none, conf,
      "Activating " ++ sc.name ++ " scene", none, false⟩
  | none =>
  match patternsList.findSome? (fun p =>
      if p.2.any (fun kw => containsSub text kw) then
        let ds := extractDevices devs text
        if ds.isEmpty then none
        else some (⟨p.1, ds, none, none, conf, "Pattern match for " ++ p.1, none, false⟩ : Intent)
      else none) with
  | some r => r
  | none =>
  match roomKeywords.findSome? (fun rk =>
      if containsSub text rk.1 then
        let ds := if containsSub text "light" then roomLightsOf devs rk.2
                  else roomDevicesOf devs rk.2
        if ds.isEmpty then none
        else some (⟨(if turnOnKws.any (fun kw => containsSub text kw)
                       then "turn_on" else "turn_off"),
                    ds, none, none, conf - Rat.normalize 2 100 (by decide),
                    "Room-based command for " ++ rk.2, none, false⟩ : Intent)
      else none) with
  | some r => r
  | none =>
  if ["hot", "warm", "sweating"].any (fun w => containsSub text w) then
    ⟨"set_temperature", [], none, some "decrease", Rat.normalize 8 10 (by decide),
      "User feels hot", none, false⟩
  else if ["cold", "freezing", "chilly"].any (fun w => containsSub text w) then
    ⟨"set_temperature", [], none, some "increase", Rat.normalize 8 10 (by decide),
      "User feels cold", none, false⟩
  else if statusKeywords.any (fun w => containsSub text w) then
    ⟨"check_status", [], none, none, Rat.normalize 9 10 (by decide),
      "Status check request", none, false⟩
  else unknownIntent

/-- Cache key normalization of `understand_command`: `user_input.lower().strip()`. -/
def normalizeKey (t : String) : String := trimStr (lowerStr t)

/-- Dict lookup in `response_cache`. -/
def cacheLookup (key : String) (c : List (String × Intent)) : Option Intent :=
  (c.find? (fun p => decide (p.1 = key))).map (fun p => p.2)

/-- Python dict assignment `cache[key] = v`: overwrite in place if present,
else append (insertion order preserved). -/
def cacheInsert (key : String) (v : Intent) : List (String × Intent) → List (String × Intent)
  | [] => [(key, v)]
  | p :: rest => if p.1 = key then (key, v) :: rest else p :: cacheInsert key v rest

/-- Function `_cache_response(key, response)`: if the cache holds more than 100 entries
drop the 20 oldest (insertion order), then store a copy of the response. -/
def cacheResponse (key : String) (resp : Intent) (c : List (String × Intent)) :
    List (String × Intent) :=
  cacheInsert key resp (if 100 < c.length then c.drop 20 else c)

/-- Function `understand_command(user_input)`.  The language-model collaborator
(`_get_ollama_response` followed by `_parse_llm_response`) is the oracle
parameter `llm`: `some action` models a parsed response, `none` a failure,
which falls back to `_fast_pattern_match(..., is_fallback=True)` without
caching.  A cache hit marks a copy with `from_cache` and bumps the hit
counter. -/
def understand_command (llm : Option Intent) (user_input : String) (s : AState) :
    Intent × AState :=
  let key := normalizeKey user_input
  match cacheLookup key s.response_cache with
  | some cached =>
    ({ cached with from_cache := true }, { s with cache_hits := s.cache_hits + 1 })
  | none =>
    let s1 := { s with cache_misses := s.cache_misses + 1 }
    match llm with
    | some action =>
      let action2 := { action with raw_input := some user_input }
      (action2, { s1 with response_cache := cacheResponse key action2 s1.response_cache })
    | none =>
      let fb := fast_pattern_match s1.devices user_input true
      ({ fb with raw_input := some user_input }, s1)

/-- Names of light-type devices (`self.devices_by_type[DeviceType.LIGHT]`). -/
def lightNames (devs : List Device) : List String :=
  (devs.filter (fun d => decide (d.device_type = DeviceType.light))).map (fun d => d.name)

/-- One iteration of the scene-application loop of `_activate_scene`:
`all_lights` expands to every light, registered names are applied through
`_control_devices`, anything else is skipped. -/
def sceneStep (now : Nat) (st : AState) (p : String × Bool) : AState :=
  if p.1 = "all_lights" then (controlDevices (lightNames st.devices) p.2 now st).2
  else if (st.devices.find? (fun d => decide (d.name = p.1))).isSome then
    (controlDevices [p.1] p.2 now st).2
  else st

/-- Function `_activate_scene(scene_name)`. -/
def activateScene (scene_name : String) (now : Nat) (s : AState) : String × AState :=
  match scenes.find? (fun sc => decide (sc.name = scene_name)) with
  | none => ("Unknown scene. Available: " ++ joinComma (scenes.map (fun sc => sc.name)), s)
  | some sc =>
    (("Scene " ++ squote ++ scene_name ++ squote ++ " activated: " ++ sc.description),
     sc.devices.foldl (sceneStep now) s)

/-- The device-to-state pairs one scene entry stands for: the `all_lights`
group token expands to every light, anything else stands for itself. -/
def expandHead (devs : List Device) (q : String × Bool) : List (String × Bool) :=
  if q.1 = "all_lights" then (lightNames devs).map (fun n => (n, q.2)) else [q]

/-- The device-to-state pairs a scene applies, with the `all_lights` group
token expanded against the registry. -/
def expandPairs (devs : List Device) (pairs : List (String × Bool)) : List (String × Bool) :=
  pairs.flatMap (expandHead devs)

/-!  ### Interleaving model for the concurrency claim

`_control_devices` runs on request-handling threads while `_context_updater`
periodically recomputes `context['power_usage']`, with no lock anywhere in the
source.  The micro-steps below are the source's own units: one loop iteration
of `_control_devices` (flip one device, accumulate the local
`total_power_change`), its final `self.context['power_usage'] += total`
commit, and one `_context_updater` recomputation.  A schedule is any
interleaving of the threads' step sequences. -/

/-- Shared state for the interleaving model: the registry, the power
aggregate, and the controller thread's local `total_power_change`. -/
structure CState where
  devices : List Device
  power_usage : ℚ
  acc : ℚ
deriving DecidableEq

/-- Atomic micro-steps, at the granularity of single statements of the
source. -/
inductive MicroStep where
  | flip (name : String) (b : Bool) (now : Nat)
  | commit
  | refresh
deriving DecidableEq

/-- Python `sum(d.power_consumption for d in self.devices.values() if d.state)`. -/
def sumDraws (devs : List Device) : ℚ :=
  ((devs.filter (fun d => d.state)).map (fun d => d.power_consumption)).sum

/-- Effect of one micro-step. -/
def microRun (st : CState) : MicroStep → CState
  | .flip n b now =>
    match st.devices.find? (fun d => decide (d.name = n)) with
    | none => st
    | some d =>
      if d.state = b then st
      else
        { st with
          devices := st.devices.map (fun e =>
            if e.name = n then { e with state := b, last_changed := now } else e),
          acc := st.acc + flipQ b d.power_consumption }
  | .commit => { st with power_usage := st.power_usage + st.acc, acc := 0 }
  | .refresh => { st with power_usage := sumDraws st.devices }

/-- Run a schedule. -/
def runTrace (st : CState) (tr : List MicroStep) : CState := tr.foldl microRun st

/-- The micro-step sequence of one `_control_devices(names, b)` call. -/
def controllerProg (names : List String) (b : Bool) (now : Nat) : List MicroStep :=
  names.map (fun n => MicroStep.flip n b now) ++ [MicroStep.commit]

/-- Relation: `zs` is an interleaving of `xs` and `ys` (each thread's steps in program
order). -/
inductive Interleaves : List MicroStep → List MicroStep → List MicroStep → Prop where
  | nil : Interleaves [] [] []
  | left {x xs ys zs} : Interleaves xs ys zs → Interleaves (x :: xs) ys (x :: zs)
  | right {y xs ys zs} : Interleaves xs ys zs → Interleaves xs (y :: ys) (y :: zs)

/-- Python `device_name in self.devices`. -/
def isKnown (devs : List Device) (n : String) : Bool :=
  (devs.find? (fun d => decide (d.name = n))).isSome

/-- Lookup `self.devices[x]` as an option (first — and, for a registry, only —
device with that name). -/
def deviceOf (x : String) (devs : List Device) : Option Device :=
  devs.find? (fun d => decide (d.name = x))

/-- The configuration part of a device: every field except the mutable
`state` and `last_changed`. -/
structure DeviceStatic where
  name : String
  pin : Nat
  device_type : DeviceType
  aliases : List String
  room : String
  power_consumption : ℚ
  schedule : List (String × String)
deriving DecidableEq

/-- Project a device to its configuration part. -/
def staticView (d : Device) : DeviceStatic :=
  ⟨d.name, d.pin, d.device_type, d.aliases, d.room, d.power_consumption, d.schedule⟩

/-- The per-device effect of `_control_devices(names, b)` at time `now`. -/
def flipUpd (b : Bool) (now : Nat) (names : List String) (d : Device) : Device :=
  if d.name ∈ names ∧ d.state ≠ b then { d with state := b, last_changed := now } else d

/-- The per-device contribution to `total_power_change`. -/
def flipDelta (b : Bool) (names : List String) (d : Device) : ℚ :=
  if d.name ∈ names ∧ d.state ≠ b then flipQ b d.power_consumption else 0

/-- The registry with the living-room light already on, power usage 60 W:
the starting point of the C2 counterexample. -/
def stateLrOn : AState :=
  ⟨initialDevices.map (fun d =>
    if d.name = "living_room_light" then { d with state := true } else d),
   60, [], 0, 0⟩

/-- The schedule exhibiting the lost update for claim C3: the controller flips
the light and accumulates its +60 W delta; the refresh loop recomputes the
(correct) total; the controller then commits its delta on top of it. -/
def lostUpdateTrace : List MicroStep :=
  [MicroStep.flip "living_room_light" true 1, MicroStep.refresh, MicroStep.commit]

/-- Shared state at the start of the C3 scenario. -/
def cState0 : CState := ⟨initialDevices, 0, 0⟩

/-- A state already drawing 2000 W, used to witness the power warning. -/
def stateHighPower : AState := { initState with power_usage := 2000 }

/-- A parsed language-model action used by the C1 witness. -/
def llmIntentW : Intent :=
  ⟨"turn_on", ["kitchen_light"], none, none, 1, "User wants the kitchen light on",
   none, false⟩

/-- The registry with every device switched on (same configuration as
`initialDevices`, different mutable state). -/
def devicesAllOn : List Device :=
  initialDevices.map (fun d => { d with state := true, last_changed := 5 })

/-!  ### Basic lemmas -/

lemma staticView_fields {a c : Device} (h : staticView a = staticView c) :
    a.name = c.name ∧ a.pin = c.pin ∧ a.device_type = c.device_type ∧
    a.aliases = c.aliases ∧ a.room = c.room ∧
    a.power_consumption = c.power_consumption ∧ a.schedule = c.schedule := by
  cases a; cases c
  simpa [staticView, DeviceStatic.mk.injEq] using h

lemma controlAux_static (b : Bool) (now : Nat) :
    ∀ (names : List String) (devs : List Device),
      ((controlAux b now names devs).1).map staticView = devs.map staticView := by
  intro names
  induction names with
  | nil => intro devs; simp [controlAux]
  | cons n ns ih =>
    intro devs
    simp only [controlAux]
    cases hf : devs.find? (fun d => decide (d.name = n)) with
    | none => simpa using ih devs
    | some d =>
      by_cases hd : d.state = b
      · simpa [hd] using ih devs
      · simp only [hd, if_false, ite_false]
        rw [ih, List.map_map]
        apply List.map_congr_left
        intro e _
        by_cases he : e.name = n <;> simp [he, staticView, Function.comp]

lemma controlAux_names (b : Bool) (now : Nat) (names : List String) (devs : List Device) :
    ((controlAux b now names devs).1).map Device.name = devs.map Device.name := by
  have h := congrArg (List.map DeviceStatic.name) (controlAux_static b now names devs)
  simpa [List.map_map, Function.comp] using h

lemma isKnown_eq_contains (devs : List Device) (n : String) :
    isKnown devs n = (devs.map Device.name).contains n := by
  induction devs with
  | nil => rfl
  | cons d ds ih =>
    by_cases h : d.name = n
    · have h1 : (d :: ds).find? (fun e => decide (e.name = n)) = some d :=
        List.find?_cons_of_pos _ (by simp [h])
      simp [isKnown, h1, List.contains_cons, h]
    · have h1 : (d :: ds).find? (fun e => decide (e.name = n)) =
          ds.find? (fun e => decide (e.name = n)) :=
        List.find?_cons_of_neg _ (by simp [h])
      have h2 : (n == d.name) = false := by
        simp only [beq_eq_false_iff_ne, ne_eq]
        exact fun e => h e.symm
      calc isKnown (d :: ds) n = isKnown ds n := by unfold isKnown; rw [h1]
        _ = (ds.map Device.name).contains n := ih
        _ = ((d :: ds).map Device.name).contains n := by
            rw [List.map_cons, List.contains_cons, h2, Bool.false_or]

lemma nodup_name_inj : ∀ {devs : List Device}, (devs.map Device.name).Nodup →
    ∀ {a c : Device}, a ∈ devs → c ∈ devs → a.name = c.name → a = c := by
  intro devs
  induction devs with
  | nil => intro _ a c ha; cases ha
  | cons d ds ih =>
    intro h a c ha hc hn
    rw [List.map_cons, List.nodup_cons] at h
    rcases List.mem_cons.mp ha with rfl | ha1
    · rcases List.mem_cons.mp hc with rfl | hc1
      · rfl
      · have hm : a.name ∈ ds.map Device.name := by
          rw [hn]; exact List.mem_map_of_mem _ hc1
        exact absurd hm h.1
    · rcases List.mem_cons.mp hc with rfl | hc1
      · have hm : c.name ∈ ds.map Device.name := by
          rw [← hn]; exact List.mem_map_of_mem _ ha1
        exact absurd hm h.1
      · exact ih h.2 ha1 hc1 hn

lemma sum_map_eq_add_of_single {α : Type} [DecidableEq α] (f g : α → ℚ) (c : ℚ) :
    ∀ (l : List α) (d : α), l.count d = 1 → (∀ e ∈ l, e ≠ d → f e = g e) → f d = c + g d →
      (l.map f).sum = c + (l.map g).sum := by
  intro l
  induction l with
  | nil => intro d hc; simp at hc
  | cons a l ih =>
    intro d hc hagree hfd
    by_cases had : a = d
    · subst had
      rw [List.count_cons_self] at hc
      have hl0 : l.count a = 0 := by omega
      have hnotmem : a ∉ l := List.count_eq_zero.mp hl0
      have hmap : l.map f = l.map g :=
        List.map_congr_left (fun e he =>
          hagree e (List.mem_cons_of_mem _ he) (fun hed => hnotmem (hed ▸ he)))
      simp only [List.map_cons, List.sum_cons, hfd, hmap]
      ring
    · have hc2 : l.count d = 1 := by
        rw [List.count_cons_of_ne (fun h => had h.symm)] at hc
        exact hc
      have hfa : f a = g a := hagree a (List.mem_cons_self _ _) had
      simp only [List.map_cons, List.sum_cons, hfa,
        ih d hc2 (fun e he hed => hagree e (List.mem_cons_of_mem _ he) hed) hfd]
      ring

/-- Full characterization of the `_control_devices` loop on a registry with
unique device names: the registry is updated pointwise, the power delta is the
sum of the per-device signed draws, and nothing is reported exactly when every
named registered device is already in the target state. -/
lemma controlAux_char (b : Bool) (now : Nat) :
    ∀ (names : List String) (devs : List Device), (devs.map Device.name).Nodup →
      (controlAux b now names devs).1 = devs.map (flipUpd b now names) ∧
      (controlAux b now names devs).2.2 = (devs.map (flipDelta b names)).sum ∧
      ((controlAux b now names devs).2.1 = [] ↔
        ∀ d ∈ devs, d.name ∈ names → d.state = b) := by
  intro names
  induction names with
  | nil =>
    intro devs _
    refine ⟨?_, ?_, ?_⟩
    · have h1 : List.map (flipUpd b now []) devs = List.map id devs :=
        List.map_congr_left (fun e _ => by simp [flipUpd])
      simp [controlAux, h1]
    · have h2 : List.map (flipDelta b []) devs = List.map (fun _ => (0:ℚ)) devs :=
        List.map_congr_left (fun e _ => by simp [flipDelta])
      have h3 : (devs.map (fun _ => (0:ℚ))).sum = 0 := by
        induction devs <;> simp [*]
      simp [controlAux, h2, h3]
    · simp [controlAux]
  | cons n ns ih =>
    intro devs hnd
    cases hf : devs.find? (fun e => decide (e.name = n)) with
    | none =>
      have hno : ∀ e ∈ devs, e.name ≠ n := by
        intro e he
        have h1 := List.find?_eq_none.mp hf e he
        simpa using h1
      obtain ⟨ih1, ih2, ih3⟩ := ih devs hnd
      simp only [controlAux, hf]
      refine ⟨?_, ?_, ?_⟩
      · rw [ih1]
        exact List.map_congr_left (fun e he => by
          simp [flipUpd, List.mem_cons, hno e he])
      · rw [ih2]
        exact congrArg List.sum (List.map_congr_left (fun e he => by
          simp [flipDelta, List.mem_cons, hno e he]))
      · rw [ih3]
        constructor
        · intro h d hd hm
          rcases List.mem_cons.mp hm with h1 | h1
          · exact absurd h1 (hno d hd)
          · exact h d hd h1
        · exact fun h d hd hm => h d hd (List.mem_cons_of_mem _ hm)
    | some d =>
      have hdm : d ∈ devs := List.mem_of_find?_eq_some hf
      have hdn : d.name = n := by
        have h1 := List.find?_some hf
        simpa using h1
      have huniq : ∀ e ∈ devs, e.name = n → e = d := fun e he hen =>
        nodup_name_inj hnd he hdm (hen.trans hdn.symm)
      by_cases hd : d.state = b
      · obtain ⟨ih1, ih2, ih3⟩ := ih devs hnd
        simp only [controlAux, hf, hd, if_true, ite_true]
        refine ⟨?_, ?_, ?_⟩
        · rw [ih1]
          refine List.map_congr_left (fun e he => ?_)
          by_cases hen : e.name = n
          · have hed : e = d := huniq e he hen
            simp [flipUpd, hed, hd]
          · simp [flipUpd, List.mem_cons, hen]
        · rw [ih2]
          refine congrArg List.sum (List.map_congr_left (fun e he => ?_))
          by_cases hen : e.name = n
          · have hed : e = d := huniq e he hen
            simp [flipDelta, hed, hd]
          · simp [flipDelta, List.mem_cons, hen]
        · rw [ih3]
          constructor
          · intro h e he hm
            rcases List.mem_cons.mp hm with h1 | h1
            · rw [huniq e he h1]; exact hd
            · exact h e he h1
          · exact fun h e he hm => h e he (List.mem_cons_of_mem _ hm)
      · have hnames2 :
            (devs.map (fun e =>
              if e.name = n then { e with state := b, last_changed := now } else e)).map
              Device.name = devs.map Device.name := by
          rw [List.map_map]
          exact List.map_congr_left (fun e _ => by
            by_cases he2 : e.name = n <;> simp [he2, Function.comp])
        have hnd2 : ((devs.map (fun e =>
            if e.name = n then { e with state := b, last_changed := now } else e)).map
            Device.name).Nodup := by rw [hnames2]; exact hnd
        obtain ⟨ih1, ih2, ih3⟩ := ih _ hnd2
        simp only [controlAux, hf, hd, if_false, ite_false]
        refine ⟨?_, ?_, ?_⟩
        · rw [ih1, List.map_map]
          refine List.map_congr_left (fun e he => ?_)
          by_cases hen : e.name = n
          · have hed : e = d := huniq e he hen
            subst hed
            simp [flipUpd, Function.comp, hen, hd, List.mem_cons]
          · simp [flipUpd, Function.comp, hen, List.mem_cons]
        · rw [ih2, List.map_map]
          have hcount : devs.count d = 1 :=
            List.count_eq_one_of_mem (List.Nodup.of_map _ hnd) hdm
          have hsum := sum_map_eq_add_of_single (flipDelta b (n :: ns))
            ((flipDelta b ns) ∘ (fun e =>
              if e.name = n then { e with state := b, last_changed := now } else e))
            (flipQ b d.power_consumption) devs d hcount
            (fun e he hed => by
              have hen : e.name ≠ n := fun hen => hed (huniq e he hen)
              simp [flipDelta, Function.comp, hen, List.mem_cons])
            (by simp [flipDelta, Function.comp, hdn, hd, List.mem_cons])
          rw [hsum]
        · constructor
          · intro h1; simp at h1
          · intro h1
            exact absurd (h1 d hdm (by simp [hdn])) hd

lemma map_name_flipUpd (b : Bool) (now : Nat) (names : List String) (devs : List Device) :
    (devs.map (flipUpd b now names)).map Device.name = devs.map Device.name := by
  rw [List.map_map]
  exact List.map_congr_left (fun e _ => by
    by_cases h : e.name ∈ names ∧ e.state ≠ b <;> simp [flipUpd, h, Function.comp])

lemma controlDevices_devices (names : List String) (b : Bool) (now : Nat) (s : AState)
    (hnd : (s.devices.map Device.name).Nodup) :
    (controlDevices names b now s).2.devices = s.devices.map (flipUpd b now names) := by
  have h1 := (controlAux_char b now names s.devices hnd).1
  unfold controlDevices
  by_cases hemp : (controlAux b now names s.devices).2.1.isEmpty <;> simp [hemp, h1]

lemma controlDevices_power (names : List String) (b : Bool) (now : Nat) (s : AState)
    (hnd : (s.devices.map Device.name).Nodup) :
    (controlDevices names b now s).2.power_usage =
      s.power_usage + (s.devices.map (flipDelta b names)).sum := by
  obtain ⟨h1, h2, h3⟩ := controlAux_char b now names s.devices hnd
  unfold controlDevices
  by_cases hemp : (controlAux b now names s.devices).2.1.isEmpty
  · have hall := h3.mp (List.isEmpty_iff.mp hemp)
    have hzero : (s.devices.map (flipDelta b names)).sum = 0 := by
      have hmap : s.devices.map (flipDelta b names) =
          s.devices.map (fun _ => (0:ℚ)) :=
        List.map_congr_left (fun e he => by
          by_cases hmem : e.name ∈ names
          · simp [flipDelta, hmem, hall e he hmem]
          · simp [flipDelta, hmem])
      rw [hmap]
      induction s.devices <;> simp [*]
    simp [hemp, hzero]
  · simp [hemp, h2]

/-- Claim C9: a batch in which each named device is unknown or already in the
requested state reports `No devices were changed.` and leaves the whole state
(device states, timestamps, power usage — hence also no power warning)
untouched. -/
theorem control_devices_noop_report (names : List String) (b : Bool) (now : Nat) (s : AState)
    (h : ∀ n ∈ names, ∀ d ∈ s.devices, d.name = n → d.state = b) :
    controlDevices names b now s = ("No devices were changed.", s) := by
  have aux : ∀ (ns : List String) (devs : List Device),
      (∀ n ∈ ns, ∀ d ∈ devs, d.name = n → d.state = b) →
      controlAux b now ns devs = (devs, [], 0) := by
    intro ns
    induction ns with
    | nil => intro devs _; rfl
    | cons n ns ih =>
      intro devs h0
      cases hf : devs.find? (fun e => decide (e.name = n)) with
      | none =>
        simp only [controlAux, hf]
        exact ih devs (fun m hm => h0 m (List.mem_cons_of_mem _ hm))
      | some d =>
        have hdn : d.name = n := by have h1 := List.find?_some hf; simpa using h1
        have hd : d.state = b :=
          h0 n (List.mem_cons_self _ _) d (List.mem_of_find?_eq_some hf) hdn
        simp only [controlAux, hf, hd, if_true, ite_true]
        exact ih devs (fun m hm => h0 m (List.mem_cons_of_mem _ hm))
  simp [controlDevices, aux names s.devices h]

/-- Witness for C9: a batch of one already-off device and one unknown device,
in a state already above the power limit, changes nothing and emits no
warning. -/
theorem control_devices_noop_report_witness :
    controlDevices ["living_room_light", "ghost_device"] false 1
        { initState with power_usage := 5000 } =
      ("No devices were changed.", { initState with power_usage := 5000 }) :=
  control_devices_noop_report ["living_room_light", "ghost_device"] false 1
    { initState with power_usage := 5000 } (by decide)

lemma controlAux_filter_known (b : Bool) (now : Nat) :
    ∀ (names : List String) (devs devs0 : List Device),
      devs.map Device.name = devs0.map Device.name →
      controlAux b now (names.filter (fun n => isKnown devs0 n)) devs
        = controlAux b now names devs := by
  intro names
  induction names with
  | nil => intro devs devs0 _; rfl
  | cons n ns ih =>
    intro devs devs0 hmap
    have hkn : isKnown devs0 n = isKnown devs n := by
      rw [isKnown_eq_contains, isKnown_eq_contains, hmap]
    by_cases hk : isKnown devs n = true
    · have hfil : (n :: ns).filter (fun m => isKnown devs0 m) =
          n :: ns.filter (fun m => isKnown devs0 m) := by
        simp [List.filter_cons, hkn, hk]
      rw [hfil]
      obtain ⟨d, hf⟩ : ∃ d, devs.find? (fun e => decide (e.name = n)) = some d := by
        cases hfind : devs.find? (fun e => decide (e.name = n)) with
        | none => exact absurd hk (by simp [isKnown, hfind])
        | some d => exact ⟨d, rfl⟩
      by_cases hd : d.state = b
      · simp only [controlAux, hf, hd, if_true, ite_true]
        exact ih devs devs0 hmap
      · simp only [controlAux, hf, hd, if_false, ite_false]
        have hmap2 : (devs.map (fun e =>
            if e.name = n then { e with state := b, last_changed := now } else e)).map
            Device.name = devs0.map Device.name := by
          rw [List.map_map, ← hmap]
          exact List.map_congr_left (fun e _ => by
            by_cases he2 : e.name = n <;> simp [he2, Function.comp])
        rw [ih _ devs0 hmap2]
    · have hkf : isKnown devs n = false := Bool.eq_false_iff.mpr hk
      have hfil : (n :: ns).filter (fun m => isKnown devs0 m) =
          ns.filter (fun m => isKnown devs0 m) := by
        simp [List.filter_cons, hkn, hkf]
      have hf : devs.find? (fun e => decide (e.name = n)) = none := by
        cases hfind : devs.find? (fun e => decide (e.name = n)) with
        | none => rfl
        | some d => exact absurd (by simp [isKnown, hfind]) hk
      rw [hfil]
      simp only [controlAux, hf]
      exact ih devs devs0 hmap

/-- Claim C7: unknown device names in a batch are silently skipped — removing
them from the batch changes nothing: same report, same state, and the
remaining devices are still applied. -/
theorem control_devices_skips_unknown (names : List String) (b : Bool) (now : Nat)
    (s : AState) :
    controlDevices (names.filter (fun n => isKnown s.devices n)) b now s
      = controlDevices names b now s := by
  unfold controlDevices
  rw [controlAux_filter_known b now names s.devices s.devices rfl]

/-- Claim C10: the `all` / `everything` / `entire` keywords of device
extraction are plain substring checks (so they also fire inside words such as
`hallway`), and they short-circuit extraction: every light if `light` occurs
in the text, otherwise every registered device, before any specific name or
alias is considered. -/
theorem extract_devices_all_substring (devs : List Device) (t : String)
    (h : containsSub t "all" = true ∨ containsSub t "everything" = true ∨
      containsSub t "entire" = true) :
    extractDevices devs t =
      if containsSub t "light" then
        (devs.filter (fun d => decide (d.device_type = DeviceType.light))).map
          (fun d => d.name)
      else devs.map (fun d => d.name) := by
  have hall : allWords.any (fun w => containsSub t w) = true := by
    rcases h with h | h | h <;> simp [allWords, h]
  unfold extractDevices
  rw [hall]
  simp

/-- Witness for C10: `hallway` contains `all` as a substring, so a
hallway-related command extracts every registered device. -/
theorem extract_devices_all_substring_witness :
    containsSub "please clean the hallway" "all" = true ∧
      extractDevices initialDevices "please clean the hallway" =
        initialDevices.map (fun d => d.name) := by
  refine ⟨by decide, ?_⟩
  have h := extract_devices_all_substring initialDevices "please clean the hallway"
    (Or.inl (by decide))
  rw [h]
  decide

/-- Counterexample to claim C2 as stated: with `living_room_light` already on
(60 W in use), `setDevices(["living_room_light"], true)` changes nothing (the
device is skipped), but the immediately following
`setDevices(["living_room_light"], false)` turns it off, leaving
`power_usage = 0 ≠ 60`.  The round trip is not the identity on power usage. -/
theorem control_round_trip_counterexample :
    ((controlDevices ["living_room_light"] false 2
        ((controlDevices ["living_room_light"] true 1 stateLrOn).2)).2).power_usage
      ≠ stateLrOn.power_usage := by
  decide

lemma sum_map_neg (f : Device → ℚ) (l : List Device) :
    (l.map (fun e => -(f e))).sum = -((l.map f).sum) := by
  induction l with
  | nil => simp
  | cons a l ih => simp [ih]; ring

/-- Claim C2 (amended): the on-then-off round trip restores
`Context.power_usage` provided no device named in the batch is already on;
devices already on are skipped by the first call but switched off by the
second, so in general the round trip lowers power usage by their draw. -/
theorem control_round_trip_restores (names : List String) (now1 now2 : Nat) (s : AState)
    (hnd : (s.devices.map Device.name).Nodup)
    (hoff : ∀ d ∈ s.devices, d.name ∈ names → d.state = false) :
    ((controlDevices names false now2
        ((controlDevices names true now1 s).2)).2).power_usage = s.power_usage := by
  have hdev1 : (controlDevices names true now1 s).2.devices =
      s.devices.map (flipUpd true now1 names) := controlDevices_devices _ _ _ _ hnd
  have hpow1 : (controlDevices names true now1 s).2.power_usage =
      s.power_usage + (s.devices.map (flipDelta true names)).sum :=
    controlDevices_power _ _ _ _ hnd
  have hnd2 : ((controlDevices names true now1 s).2.devices.map Device.name).Nodup := by
    rw [hdev1, map_name_flipUpd]; exact hnd
  have hpow2 : ((controlDevices names false now2
      ((controlDevices names true now1 s).2)).2).power_usage =
      (controlDevices names true now1 s).2.power_usage +
        ((controlDevices names true now1 s).2.devices.map (flipDelta false names)).sum :=
    controlDevices_power _ _ _ _ hnd2
  rw [hpow2, hpow1, hdev1, List.map_map]
  have hneg : s.devices.map ((flipDelta false names) ∘ (flipUpd true now1 names)) =
      s.devices.map (fun e => -(flipDelta true names e)) := by
    refine List.map_congr_left (fun e he => ?_)
    by_cases hmem : e.name ∈ names
    · have hst : e.state = false := hoff e he hmem
      simp [flipDelta, flipUpd, flipQ, Function.comp, hmem, hst]
    · simp [flipDelta, flipUpd, Function.comp, hmem]
  rw [hneg, sum_map_neg]
  ring

/-- Witness for the amended C2: turning two initially-off devices on and then
off restores the initial 0 W. -/
theorem control_round_trip_restores_witness :
    ((controlDevices ["living_room_light", "bedroom_heater"] false 2
        ((controlDevices ["living_room_light", "bedroom_heater"] true 1 initState).2)).2).power_usage
      = initState.power_usage :=
  control_round_trip_restores ["living_room_light", "bedroom_heater"] 1 2 initState
    (by decide) (by decide)

/-- Counterexample to claim C3 as stated: the source takes no lock, so the
mutations of one `_control_devices(["living_room_light"], True)` call and one
`_context_updater` power recomputation admit an interleaving (a valid schedule
of both threads' steps) after which `context['power_usage']` is 120 W while
the true sum of on-device draws is 60 W — a double-counted (lost) update, so
the mutations do not appear atomic. -/
theorem power_lost_update_interleaving :
    Interleaves (controllerProg ["living_room_light"] true 1) [MicroStep.refresh]
      lostUpdateTrace
    ∧ (runTrace cState0 lostUpdateTrace).power_usage ≠
        sumDraws (runTrace cState0 lostUpdateTrace).devices := by
  constructor
  · have h : controllerProg ["living_room_light"] true 1 =
        [MicroStep.flip "living_room_light" true 1, MicroStep.commit] := rfl
    rw [h]
    exact Interleaves.left (Interleaves.right (Interleaves.left Interleaves.nil))
  · decide

/-- Claim C3 (amended): the code does not make the registry/context mutations
atomic and concurrent schedules can lose updates; what does hold is that any
schedule in
which a context-refresh recomputation runs last leaves `power_usage` equal to
the sum of the draws of the devices that are on — the periodic recomputation
reconciles the aggregate. -/
theorem refresh_last_restores_power_sum (pre : List MicroStep) (st : CState) :
    (runTrace st (pre ++ [MicroStep.refresh])).power_usage =
      sumDraws (runTrace st (pre ++ [MicroStep.refresh])).devices := by
  rw [runTrace, List.foldl_append]
  simp [microRun]

/-- Claim C8: whenever a `_control_devices` call changes at least one device
and the updated power usage exceeds the limit, the report carries the warning
text — while every requested transition is still applied (the limit is
advisory, never blocking). -/
theorem power_warning_advisory (names : List String) (b : Bool) (now : Nat) (s : AState)
    (hnd : (s.devices.map Device.name).Nodup)
    (hch : (controlAux b now names s.devices).2.1 ≠ [])
    (hpow : power_limit < s.power_usage + (controlAux b now names s.devices).2.2) :
    (∃ t, (controlDevices names b now s).1 =
        t ++ warnText (s.power_usage + (controlAux b now names s.devices).2.2))
    ∧ ∀ d ∈ (controlDevices names b now s).2.devices, d.name ∈ names → d.state = b := by
  have hemp : (controlAux b now names s.devices).2.1.isEmpty = false := by
    cases h : (controlAux b now names s.devices).2.1 with
    | nil => exact absurd h hch
    | cons a l => rfl
  constructor
  · unfold controlDevices
    simp only [hemp, Bool.false_eq_true, if_false, ite_false]
    rw [if_pos hpow]
    exact ⟨_, rfl⟩
  · intro d hd hdn
    rw [controlDevices_devices names b now s hnd] at hd
    obtain ⟨e, he, rfl⟩ := List.mem_map.mp hd
    by_cases hcond : e.name ∈ names ∧ e.state ≠ b
    · simp [flipUpd, hcond]
    · simp only [flipUpd, hcond, if_false, ite_false] at hdn ⊢
      have hsb : ¬ e.state ≠ b := fun hne => hcond ⟨hdn, hne⟩
      simpa using hsb

/-- Witness for C8: turning on the 1500 W heater at 2000 W baseline crosses
the 3000 W limit — the report ends with the warning and the heater is on. -/
theorem power_warning_advisory_witness :
    (∃ t, (controlDevices ["bedroom_heater"] true 1 stateHighPower).1 =
        t ++ warnText (stateHighPower.power_usage +
          (controlAux true 1 ["bedroom_heater"] stateHighPower.devices).2.2))
    ∧ ∀ d ∈ (controlDevices ["bedroom_heater"] true 1 stateHighPower).2.devices,
        d.name ∈ ["bedroom_heater"] → d.state = true :=
  power_warning_advisory ["bedroom_heater"] true 1 stateHighPower
    (by decide) (by decide) (by decide)

lemma cacheLookup_insert_self (k : String) (v : Intent) :
    ∀ c, cacheLookup k (cacheInsert k v c) = some v := by
  intro c
  induction c with
  | nil => simp [cacheInsert, cacheLookup]
  | cons p rest ih =>
    unfold cacheInsert
    by_cases h : p.1 = k
    · rw [if_pos h]
      simp [cacheLookup]
    · rw [if_neg h]
      unfold cacheLookup at ih ⊢
      rw [List.find?_cons_of_neg _ (by simp [h])]
      exact ih

lemma cacheLookup_cacheResponse_self (k : String) (v : Intent) (c : List (String × Intent)) :
    cacheLookup k (cacheResponse k v c) = some v := by
  unfold cacheResponse
  exact cacheLookup_insert_self k v _

/-- Claim C1: after a first `understand_command` call whose parsed
language-model response was cached (a cache miss followed by a successful
parse), a second call with the same text up to trim+lowercase normalization
returns the first result with the `from_cache` mark set — all other fields
identical — and leaves the stored cache entry untouched (the mark is set on a
copy only). -/
theorem understand_command_cache_hit (s : AState) (t t2 : String) (a : Intent)
    (llm2 : Option Intent)
    (hnorm : normalizeKey t2 = normalizeKey t)
    (hmiss : cacheLookup (normalizeKey t) s.response_cache = none) :
    (understand_command llm2 t2 (understand_command (some a) t s).2).1
      = { (understand_command (some a) t s).1 with from_cache := true }
    ∧ (understand_command llm2 t2 (understand_command (some a) t s).2).2.response_cache
      = (understand_command (some a) t s).2.response_cache := by
  have hfirst : understand_command (some a) t s =
      ({ a with raw_input := some t },
       { s with cache_misses := s.cache_misses + 1,
                response_cache := cacheResponse (normalizeKey t)
                  { a with raw_input := some t } s.response_cache }) := by
    unfold understand_command
    simp only [hmiss]
  have hhit : cacheLookup (normalizeKey t)
      (cacheResponse (normalizeKey t) { a with raw_input := some t } s.response_cache)
      = some { a with raw_input := some t } :=
    cacheLookup_cacheResponse_self _ _ _
  rw [hfirst]
  simp only [understand_command, hnorm, hhit]
  exact ⟨trivial, trivial⟩

/-- Witness for C1: cache then hit with differently-trimmed/cased text, even
with the language model unavailable on the second call. -/
theorem understand_command_cache_hit_witness :
    (understand_command none "  Turn ON the kitchen light "
        (understand_command (some llmIntentW) "turn on the kitchen light" initState).2).1
      = { (understand_command (some llmIntentW) "turn on the kitchen light" initState).1
            with from_cache := true }
    ∧ (understand_command none "  Turn ON the kitchen light "
        (understand_command (some llmIntentW) "turn on the kitchen light"
          initState).2).2.response_cache
      = (understand_command (some llmIntentW) "turn on the kitchen light"
          initState).2.response_cache :=
  understand_command_cache_hit initState "turn on the kitchen light"
    "  Turn ON the kitchen light " llmIntentW none (by decide) (by decide)

lemma normalize_eq_div (n : ℤ) (d : ℕ) (h : ¬ d = 0) :
    Rat.normalize n d h = (n : ℚ) / (d : ℚ) := by
  rw [show Rat.normalize n d h = mkRat n d from (dif_neg h).symm,
    Rat.mkRat_eq_divInt, Rat.divInt_eq_div]
  norm_num

lemma normalize_one_two (h : ¬(2:ℕ) = 0) : Rat.normalize 1 2 h = (1/2 : ℚ) := by
  rw [normalize_eq_div]; norm_num

lemma normalize_two_hundred (h : ¬(100:ℕ) = 0) : Rat.normalize 2 100 h = (1/50 : ℚ) := by
  rw [normalize_eq_div]; norm_num

lemma normalize_eight_ten (h : ¬(10:ℕ) = 0) : Rat.normalize 8 10 h = (4/5 : ℚ) := by
  rw [normalize_eq_div]; norm_num

lemma normalize_nine_ten (h : ¬(10:ℕ) = 0) : Rat.normalize 9 10 h = (9/10 : ℚ) := by
  rw [normalize_eq_div]; norm_num

lemma normalize_one_ten (h : ¬(10:ℕ) = 0) : Rat.normalize 1 10 h = (1/10 : ℚ) := by
  rw [normalize_eq_div]; norm_num

lemma filter_map_congr (p : Device → Bool) (g : Device → String)
    (hp : ∀ {d e : Device}, staticView d = staticView e → p d = p e)
    (hg : ∀ {d e : Device}, staticView d = staticView e → g d = g e) :
    ∀ {devs1 devs2 : List Device}, devs1.map staticView = devs2.map staticView →
      (devs1.filter p).map g = (devs2.filter p).map g := by
  intro devs1
  induction devs1 with
  | nil =>
    intro devs2 h
    cases devs2 with
    | nil => rfl
    | cons c m => simp at h
  | cons a l ih =>
    intro devs2 h
    cases devs2 with
    | nil => simp at h
    | cons c m =>
      simp only [List.map_cons, List.cons.injEq] at h
      obtain ⟨h1, h2⟩ := h
      rw [List.filter_cons, List.filter_cons, ← hp h1]
      by_cases hpa : p a
      · simp only [hpa, if_true, ite_true, List.map_cons, hg h1, ih h2]
      · simp only [hpa, Bool.false_eq_true, if_false, ite_false, ih h2]

lemma map_name_congr {devs1 devs2 : List Device}
    (h : devs1.map staticView = devs2.map staticView) :
    devs1.map (fun d => d.name) = devs2.map (fun d => d.name) := by
  have h1 := filter_map_congr (fun _ => true) (fun d => d.name)
    (fun _ => rfl) (fun hse => (staticView_fields hse).1) h
  simpa using h1

lemma extractDevices_congr {devs1 devs2 : List Device}
    (h : devs1.map staticView = devs2.map staticView) :
    extractDevices devs1 = extractDevices devs2 := by
  funext text
  unfold extractDevices
  by_cases hall : (allWords.any fun w => containsSub text w) = true
  · rw [hall]
    by_cases hlight : containsSub text "light" = true
    · simp only [hlight, if_true, ite_true]
      exact filter_map_congr _ _
        (fun hse => by rw [(staticView_fields hse).2.2.1])
        (fun hse => (staticView_fields hse).1) h
    · simp only [hlight, Bool.false_eq_true, if_false, ite_false]
      exact map_name_congr h
  · have hallf : (allWords.any fun w => containsSub text w) = false :=
      Bool.eq_false_iff.mpr hall
    rw [hallf]
    simp only [Bool.false_eq_true, if_false, ite_false]
    exact filter_map_congr _ _
      (fun hse => by
        rw [(staticView_fields hse).1, (staticView_fields hse).2.2.2.1])
      (fun hse => (staticView_fields hse).1) h

lemma roomDevicesOf_congr {devs1 devs2 : List Device}
    (h : devs1.map staticView = devs2.map staticView) :
    roomDevicesOf devs1 = roomDevicesOf devs2 := by
  funext room
  exact filter_map_congr _ _
    (fun hse => by rw [(staticView_fields hse).2.2.2.2.1])
    (fun hse => (staticView_fields hse).1) h

lemma roomLightsOf_congr {devs1 devs2 : List Device}
    (h : devs1.map staticView = devs2.map staticView) :
    roomLightsOf devs1 = roomLightsOf devs2 := by
  funext room
  exact filter_map_congr _ _
    (fun hse => by
      rw [(staticView_fields hse).2.2.2.2.1, (staticView_fields hse).2.2.1])
    (fun hse => (staticView_fields hse).1) h

lemma findSome?_mem {α β : Type} {f : α → Option β} :
    ∀ {l : List α} {b : β}, l.findSome? f = some b → ∃ a ∈ l, f a = some b := by
  intro l
  induction l with
  | nil => intro b h; simp [List.findSome?_nil] at h
  | cons a l ih =>
    intro b h
    rw [List.findSome?_cons] at h
    cases hf : f a with
    | some c =>
      rw [hf] at h
      exact ⟨a, List.mem_cons_self _ _, hf.trans h⟩
    | none =>
      rw [hf] at h
      obtain ⟨x, hx, hfx⟩ := ih h
      exact ⟨x, List.mem_cons_of_mem _ hx, hfx⟩

/-- The keyword-clause reasoning marker can never coincide with the
room-clause reasoning marker: the two literals differ in their first
character. -/
lemma pattern_marker_ne_room_marker (a c : String) :
    "Pattern match for " ++ a ≠ "Room-based command for " ++ c := by
  intro h
  have h2 : ("Pattern match for " ++ a).data = ("Room-based command for " ++ c).data :=
    congrArg String.data h
  rw [String.data_append, String.data_append] at h2
  have h3 := congrArg List.head? h2
  rw [show "Pattern match for ".data = 'P' :: "attern match for ".data from rfl,
      show "Room-based command for ".data = 'R' :: "oom-based command for ".data from rfl]
    at h3
  simp only [List.cons_append, List.head?_cons, Option.some.injEq] at h3
  exact absurd h3 (by decide)

/-- Exhaustive shape analysis of `_fast_pattern_match`: every result is one of
the six clause families, with the confidence each clause assigns, and with
the reasoning marker separating keyword matches (`Pattern match for …`) from
room-based matches (`Room-based command for …`). -/
lemma fast_pattern_match_shape (devs : List Device) (t : String) (b : Bool) :
    ((fast_pattern_match devs t b).intent = "activate_scene" ∧
      (fast_pattern_match devs t b).confidence = (if b then (1:ℚ)/2 else 1)) ∨
    (((fast_pattern_match devs t b).intent = "turn_on" ∨
        (fast_pattern_match devs t b).intent = "turn_off" ∨
        (fast_pattern_match devs t b).intent = "toggle") ∧
      (fast_pattern_match devs t b).confidence = (if b then (1:ℚ)/2 else 1) ∧
      (fast_pattern_match devs t b).reasoning =
        "Pattern match for " ++ (fast_pattern_match devs t b).intent) ∨
    (((fast_pattern_match devs t b).intent = "turn_on" ∨
        (fast_pattern_match devs t b).intent = "turn_off") ∧
      (fast_pattern_match devs t b).confidence = (if b then (1:ℚ)/2 else 1) - 1/50 ∧
      ∃ room, (fast_pattern_match devs t b).reasoning =
        "Room-based command for " ++ room) ∨
    ((fast_pattern_match devs t b).intent = "set_temperature" ∧
      (fast_pattern_match devs t b).confidence = 4/5) ∨
    ((fast_pattern_match devs t b).intent = "check_status" ∧
      (fast_pattern_match devs t b).confidence = 9/10) ∨
    fast_pattern_match devs t b = unknownIntent := by
  simp only [fast_pattern_match]
  split
  · left
    refine ⟨rfl, ?_⟩
    cases b <;> simp [normalize_one_two]
  · split
    · next r hpat =>
      obtain ⟨p, hp, hfp⟩ := findSome?_mem hpat
      split at hfp
      · split at hfp
        · exact absurd hfp (by simp)
        · injection hfp with hfp
          right; left
          refine ⟨?_, ?_, ?_⟩
          · simp [patternsList] at hp
            rcases hp with rfl | rfl | rfl
            · left; rw [← hfp]
            · right; left; rw [← hfp]
            · right; right; rw [← hfp]
          · rw [← hfp]
            cases b <;> simp [normalize_one_two]
          · rw [← hfp]
      · exact absurd hfp (by simp)
    · split
      · next r hroom =>
        obtain ⟨rk, hrk, hfr⟩ := findSome?_mem hroom
        split at hfr
        · split at hfr
          · split at hfr
            · exact absurd hfr (by simp)
            · injection hfr with hfr
              right; right; left
              refine ⟨?_, ?_, rk.2, ?_⟩
              · rw [← hfr]
                split
                · left; rfl
                · right; rfl
              · rw [← hfr]
                cases b <;> simp [normalize_one_two, normalize_two_hundred]
              · rw [← hfr]
          · split at hfr
            · exact absurd hfr (by simp)
            · injection hfr with hfr
              right; right; left
              refine ⟨?_, ?_, rk.2, ?_⟩
              · rw [← hfr]
                split
                · left; rfl
                · right; rfl
              · rw [← hfr]
                cases b <;> simp [normalize_one_two, normalize_two_hundred]
              · rw [← hfr]
        · exact absurd hfr (by simp)
      · by_cases h1 : (["hot", "warm", "sweating"].any fun w =>
            containsSub (lowerStr t) w) = true
        · simp only [h1, if_true, ite_true]
          right; right; right; left
          exact ⟨trivial, by simp [normalize_eight_ten]⟩
        · have h1f : (["hot", "warm", "sweating"].any fun w =>
              containsSub (lowerStr t) w) = false := Bool.eq_false_iff.mpr h1
          simp only [h1f, Bool.false_eq_true, if_false, ite_false]
          by_cases h2 : (["cold", "freezing", "chilly"].any fun w =>
              containsSub (lowerStr t) w) = true
          · simp only [h2, if_true, ite_true]
            right; right; right; left
            exact ⟨trivial, by simp [normalize_eight_ten]⟩
          · have h2f : (["cold", "freezing", "chilly"].any fun w =>
                containsSub (lowerStr t) w) = false := Bool.eq_false_iff.mpr h2
            simp only [h2f, Bool.false_eq_true, if_false, ite_false]
            by_cases h3 : (statusKeywords.any fun w =>
                containsSub (lowerStr t) w) = true
            · simp only [h3, if_true, ite_true]
              right; right; right; right; left
              exact ⟨trivial, by simp [normalize_nine_ten]⟩
            · have h3f : (statusKeywords.any fun w =>
                  containsSub (lowerStr t) w) = false := Bool.eq_false_iff.mpr h3
              simp only [h3f, Bool.false_eq_true, if_false, ite_false]
              right; right; right; right; right
              trivial

/-- Claim C4: `_fast_pattern_match` is a pure, total, deterministic function
of the input text and the fallback flag given the fixed device/scene
configuration: it reads no mutable state (its result is unchanged under any
change of device `state` / `last_changed`, the only mutable device fields),
it mutates nothing (it is a plain function in this embedding, as in the
source, which performs no writes), and the only way it answers `unknown` is
the default clause — intent `unknown` with confidence 0.1. -/
theorem fast_pattern_match_pure :
    (∀ (devs1 devs2 : List Device) (t : String) (b : Bool),
        devs1.map staticView = devs2.map staticView →
        fast_pattern_match devs1 t b = fast_pattern_match devs2 t b)
    ∧ (∀ (devs : List Device) (t : String) (b : Bool),
        (fast_pattern_match devs t b).intent = "unknown" →
        fast_pattern_match devs t b = unknownIntent) := by
  constructor
  · intro devs1 devs2 t b h
    unfold fast_pattern_match
    rw [extractDevices_congr h, roomDevicesOf_congr h, roomLightsOf_congr h]
  · intro devs t b hint
    rcases fast_pattern_match_shape devs t b with h | h | h | h | h | h
    · exact absurd (h.1.symm.trans hint) (by decide)
    · rcases h.1 with h1 | h1 | h1 <;> exact absurd (h1.symm.trans hint) (by decide)
    · rcases h.1 with h1 | h1 <;> exact absurd (h1.symm.trans hint) (by decide)
    · exact absurd (h.1.symm.trans hint) (by decide)
    · exact absurd (h.1.symm.trans hint) (by decide)
    · exact h

/-- Witness for C4: the matcher answers identically on a registry with all
devices off and one with all devices on, and an unmatched input yields the
default `unknown` intent with confidence 0.1. -/
theorem fast_pattern_match_pure_witness :
    fast_pattern_match initialDevices "hello" true =
      fast_pattern_match devicesAllOn "hello" true
    ∧ fast_pattern_match initialDevices "xyzzy" false = unknownIntent :=
  ⟨fast_pattern_match_pure.1 initialDevices devicesAllOn "hello" true (by decide),
   fast_pattern_match_pure.2 initialDevices "xyzzy" false (by decide)⟩

/-- Counterexample to claim C5 as stated: on input `i am hot` with
`is_fallback = False`, `_fast_pattern_match` matches the temperature-feeling
clause and returns confidence 0.8 — not 1.0, not 1.0 − 0.02, and not the
`unknown` default 0.1.  (The status clause similarly returns 0.9.)  So the
claimed confidence table misses the 0.8 and 0.9 clauses. -/
theorem fast_pattern_match_confidence_counterexample :
    (fast_pattern_match initialDevices "i am hot" false).intent = "set_temperature"
    ∧ (fast_pattern_match initialDevices "i am hot" false).confidence ≠ 1
    ∧ (fast_pattern_match initialDevices "i am hot" false).confidence ≠ 1 - 1/50
    ∧ (fast_pattern_match initialDevices "i am hot" false).confidence ≠ 1/10 := by
  refine ⟨by decide, by decide, by decide, by decide⟩

/-- Claim C5 (amended): the confidence of a `_fast_pattern_match` result is
1.0 (non-fallback) or 0.5 (fallback) for scene and keyword matches, the same
minus 0.02 exactly for room-based matches — a `turn_on`/`turn_off` result is
room-based precisely when it carries the room clause's
`Room-based command for …` reasoning marker, and then and only then its
confidence is the base minus 0.02 — and, the cases the claim omits, always
0.8 for temperature-feeling matches, 0.9 for status checks, and 0.1 for the
`unknown` default, the latter three independent of the fallback flag. -/
theorem fast_pattern_match_confidence_table (devs : List Device) (t : String) (b : Bool) :
    ((fast_pattern_match devs t b).intent = "activate_scene" →
      (fast_pattern_match devs t b).confidence = (if b then (1:ℚ)/2 else 1))
    ∧ ((fast_pattern_match devs t b).intent = "toggle" →
      (fast_pattern_match devs t b).confidence = (if b then (1:ℚ)/2 else 1))
    ∧ ((fast_pattern_match devs t b).intent = "turn_on" ∨
        (fast_pattern_match devs t b).intent = "turn_off" →
      ((∃ room, (fast_pattern_match devs t b).reasoning =
          "Room-based command for " ++ room) →
        (fast_pattern_match devs t b).confidence = (if b then (1:ℚ)/2 else 1) - 1/50)
      ∧ ((∀ room, (fast_pattern_match devs t b).reasoning ≠
          "Room-based command for " ++ room) →
        (fast_pattern_match devs t b).confidence = (if b then (1:ℚ)/2 else 1)))
    ∧ ((fast_pattern_match devs t b).intent = "set_temperature" →
      (fast_pattern_match devs t b).confidence = 4/5)
    ∧ ((fast_pattern_match devs t b).intent = "check_status" →
      (fast_pattern_match devs t b).confidence = 9/10)
    ∧ ((fast_pattern_match devs t b).intent = "unknown" →
      (fast_pattern_match devs t b).confidence = 1/10) := by
  have hu : unknownIntent.confidence = 1/10 := by
    simp [unknownIntent, normalize_one_ten]
  rcases fast_pattern_match_shape devs t b with h | h | h | h | h | h
  · refine ⟨fun _ => h.2, ?_, ?_, ?_, ?_, ?_⟩ <;>
      · intro hi
        first
          | exact absurd (h.1.symm.trans hi) (by decide)
          | (rcases hi with hi | hi <;> exact absurd (h.1.symm.trans hi) (by decide))
  · refine ⟨?_, ?_, ?_, ?_, ?_, ?_⟩
    · intro hi
      rcases h.1 with h1 | h1 | h1 <;> exact absurd (h1.symm.trans hi) (by decide)
    · intro _; exact h.2.1
    · intro _
      constructor
      · intro hroom
        obtain ⟨room, hr⟩ := hroom
        exact absurd (h.2.2.symm.trans hr)
          (pattern_marker_ne_room_marker (fast_pattern_match devs t b).intent room)
      · intro _; exact h.2.1
    · intro hi
      rcases h.1 with h1 | h1 | h1 <;> exact absurd (h1.symm.trans hi) (by decide)
    · intro hi
      rcases h.1 with h1 | h1 | h1 <;> exact absurd (h1.symm.trans hi) (by decide)
    · intro hi
      rcases h.1 with h1 | h1 | h1 <;> exact absurd (h1.symm.trans hi) (by decide)
  · refine ⟨?_, ?_, ?_, ?_, ?_, ?_⟩
    · intro hi
      rcases h.1 with h1 | h1 <;> exact absurd (h1.symm.trans hi) (by decide)
    · intro hi
      rcases h.1 with h1 | h1 <;> exact absurd (h1.symm.trans hi) (by decide)
    · intro _
      constructor
      · intro _; exact h.2.1
      · intro hall
        obtain ⟨room, hr⟩ := h.2.2
        exact absurd hr (hall room)
    · intro hi
      rcases h.1 with h1 | h1 <;> exact absurd (h1.symm.trans hi) (by decide)
    · intro hi
      rcases h.1 with h1 | h1 <;> exact absurd (h1.symm.trans hi) (by decide)
    · intro hi
      rcases h.1 with h1 | h1 <;> exact absurd (h1.symm.trans hi) (by decide)
  · refine ⟨?_, ?_, ?_, fun _ => h.2, ?_, ?_⟩ <;>
      · intro hi
        first
          | exact absurd (h.1.symm.trans hi) (by decide)
          | (rcases hi with hi | hi <;> exact absurd (h.1.symm.trans hi) (by decide))
  · refine ⟨?_, ?_, ?_, ?_, fun _ => h.2, ?_⟩ <;>
      · intro hi
        first
          | exact absurd (h.1.symm.trans hi) (by decide)
          | (rcases hi with hi | hi <;> exact absurd (h.1.symm.trans hi) (by decide))
  · rw [h]
    refine ⟨?_, ?_, ?_, ?_, ?_, fun _ => hu⟩ <;>
      · intro hi
        exact absurd hi (by decide)

/-- Witness for the amended C5: a room-based `turn_off` (room marker present)
carries 1.0 − 0.02 = 0.98, a keyword `turn_off` (no room marker) carries the
base 1.0, and a fallback call on a temperature-feeling input still carries
confidence 0.8, not 0.5. -/
theorem fast_pattern_match_confidence_table_witness :
    (fast_pattern_match initialDevices "turn off the bedroom" false).confidence = 1 - 1/50
    ∧ (fast_pattern_match initialDevices "turn off everything" false).confidence = 1
    ∧ (fast_pattern_match initialDevices "i am cold" true).confidence = 4/5 := by
  refine ⟨?_, ?_, ?_⟩
  · exact ((fast_pattern_match_confidence_table initialDevices "turn off the bedroom"
      false).2.2.1 (Or.inr (by decide))).1 ⟨"bedroom", by decide⟩
  · refine ((fast_pattern_match_confidence_table initialDevices "turn off everything"
      false).2.2.1 (Or.inr (by decide))).2 ?_
    intro room hcontra
    have hreas : (fast_pattern_match initialDevices "turn off everything" false).reasoning
        = "Pattern match for " ++ "turn_off" := by decide
    rw [hreas] at hcontra
    exact pattern_marker_ne_room_marker "turn_off" room hcontra
  · exact (fast_pattern_match_confidence_table initialDevices "i am cold" true).2.2.2.1
      (by decide)

lemma names_of_static {devs1 devs2 : List Device}
    (h : devs1.map staticView = devs2.map staticView) :
    devs1.map Device.name = devs2.map Device.name := by
  have h2 := congrArg (List.map DeviceStatic.name) h
  simpa [List.map_map, Function.comp] using h2

lemma lightNames_congr {devs1 devs2 : List Device}
    (h : devs1.map staticView = devs2.map staticView) :
    lightNames devs1 = lightNames devs2 :=
  filter_map_congr _ _
    (fun hse => by rw [(staticView_fields hse).2.2.1])
    (fun hse => (staticView_fields hse).1) h

lemma expandPairs_congr {devs1 devs2 : List Device}
    (h : devs1.map staticView = devs2.map staticView) (pairs : List (String × Bool)) :
    expandPairs devs1 pairs = expandPairs devs2 pairs := by
  unfold expandPairs expandHead
  rw [lightNames_congr h]

lemma controlDevices_static (names : List String) (b : Bool) (now : Nat) (s : AState) :
    ((controlDevices names b now s).2.devices).map staticView =
      s.devices.map staticView := by
  unfold controlDevices
  by_cases hemp : (controlAux b now names s.devices).2.1.isEmpty <;>
    simp [hemp, controlAux_static]

lemma sceneStep_static (now : Nat) (st : AState) (q : String × Bool) :
    ((sceneStep now st q).devices).map staticView = st.devices.map staticView := by
  unfold sceneStep
  by_cases h1 : q.1 = "all_lights"
  · simp [h1, controlDevices_static]
  · by_cases h2 : (st.devices.find? (fun d => decide (d.name = q.1))).isSome = true <;>
      simp [h1, h2, controlDevices_static]

lemma sceneFold_static (now : Nat) :
    ∀ (pairs : List (String × Bool)) (st : AState),
      ((pairs.foldl (sceneStep now) st).devices).map staticView =
        st.devices.map staticView := by
  intro pairs
  induction pairs with
  | nil => intro st; rfl
  | cons q rest ih =>
    intro st
    rw [List.foldl_cons, ih, sceneStep_static]

/-- Helper: `_control_devices(names, b)` leaves every device named in the batch in
state `b`. -/
lemma controlDevices_sets (names : List String) (b : Bool) (now : Nat) (s : AState)
    (hnd : (s.devices.map Device.name).Nodup) :
    ∀ d ∈ (controlDevices names b now s).2.devices, d.name ∈ names → d.state = b := by
  intro d hd hdn
  rw [controlDevices_devices names b now s hnd] at hd
  obtain ⟨e, he, rfl⟩ := List.mem_map.mp hd
  by_cases hc : e.name ∈ names ∧ e.state ≠ b
  · simp [flipUpd, hc]
  · simp only [flipUpd, hc, if_false, ite_false] at hdn ⊢
    exact not_not.mp (fun hne => hc ⟨hdn, hne⟩)

/-- Helper: `_control_devices(names, b)` does not touch devices outside the batch. -/
lemma controlDevices_frame (names : List String) (b : Bool) (now : Nat) (s : AState)
    (hnd : (s.devices.map Device.name).Nodup) (x : String) (hx : x ∉ names) :
    ∀ d1 ∈ (controlDevices names b now s).2.devices, d1.name = x →
      ∃ d0 ∈ s.devices, d0.name = x ∧ d1.state = d0.state := by
  intro d1 hd1 hdx
  rw [controlDevices_devices names b now s hnd] at hd1
  obtain ⟨d0, hd0, rfl⟩ := List.mem_map.mp hd1
  have hname : (flipUpd b now names d0).name = d0.name := by
    by_cases hc : d0.name ∈ names ∧ d0.state ≠ b <;> simp [flipUpd, hc]
  have hd0x : d0.name = x := by rw [← hname]; exact hdx
  have hcond : ¬(d0.name ∈ names ∧ d0.state ≠ b) := fun hc => hx (hd0x ▸ hc.1)
  exact ⟨d0, hd0, hd0x, by simp [flipUpd, hcond]⟩

lemma sceneStep_sets (now : Nat) (st : AState) (q : String × Bool)
    (hnd : (st.devices.map Device.name).Nodup) :
    ∀ p ∈ expandHead st.devices q,
      ∀ d ∈ (sceneStep now st q).devices, d.name = p.1 → d.state = p.2 := by
  intro p hp d hd hdn
  unfold expandHead at hp
  unfold sceneStep at hd
  by_cases hq : q.1 = "all_lights"
  · rw [if_pos hq] at hp hd
    obtain ⟨n, hn, rfl⟩ := List.mem_map.mp hp
    exact controlDevices_sets _ _ _ _ hnd d hd (hdn ▸ hn)
  · rw [if_neg hq] at hp hd
    have hpq : p = q := by simpa using hp
    subst hpq
    by_cases hreg : (st.devices.find? (fun d => decide (d.name = p.1))).isSome = true
    · rw [if_pos hreg] at hd
      exact controlDevices_sets _ _ _ _ hnd d hd (by simp [hdn])
    · rw [if_neg hreg] at hd
      exfalso
      apply hreg
      rw [Option.isSome_iff_exists]
      have hfind : ∃ e, st.devices.find? (fun d => decide (d.name = p.1)) = some e := by
        cases hcase : st.devices.find? (fun d => decide (d.name = p.1)) with
        | none =>
          exfalso
          have hne := List.find?_eq_none.mp hcase d hd
          simp [hdn] at hne
        | some e => exact ⟨e, rfl⟩
      obtain ⟨e, he⟩ := hfind
      exact ⟨e, he⟩

lemma sceneStep_frame (now : Nat) (st : AState) (q : String × Bool) (x : String)
    (hnd : (st.devices.map Device.name).Nodup)
    (hx : x ∉ (expandHead st.devices q).map Prod.fst) :
    ∀ d1 ∈ (sceneStep now st q).devices, d1.name = x →
      ∃ d0 ∈ st.devices, d0.name = x ∧ d1.state = d0.state := by
  intro d1 hd1 hdx
  unfold expandHead at hx
  unfold sceneStep at hd1
  by_cases hq : q.1 = "all_lights"
  · rw [if_pos hq] at hx
    rw [if_pos hq] at hd1
    have hxl : x ∉ lightNames st.devices := by
      intro hmem
      exact hx (by simpa [List.map_map, Function.comp] using hmem)
    exact controlDevices_frame _ _ _ _ hnd x hxl d1 hd1 hdx
  · rw [if_neg hq] at hx
    rw [if_neg hq] at hd1
    have hxq : x ∉ [q.1] := by simpa using hx
    by_cases hreg : (st.devices.find? (fun d => decide (d.name = q.1))).isSome = true
    · rw [if_pos hreg] at hd1
      exact controlDevices_frame _ _ _ _ hnd x hxq d1 hd1 hdx
    · rw [if_neg hreg] at hd1
      exact ⟨d1, hd1, hdx, rfl⟩

lemma scene_fold_frame (now : Nat) :
    ∀ (pairs : List (String × Bool)) (st : AState) (x : String),
      (st.devices.map Device.name).Nodup →
      x ∉ (expandPairs st.devices pairs).map Prod.fst →
      ∀ d ∈ (pairs.foldl (sceneStep now) st).devices, d.name = x →
        ∃ d0 ∈ st.devices, d0.name = x ∧ d.state = d0.state := by
  intro pairs
  induction pairs with
  | nil => intro st x _ _ d hd hdx; exact ⟨d, hd, hdx, rfl⟩
  | cons q rest ih =>
    intro st x hnd hx d hd hdx
    rw [List.foldl_cons] at hd
    have hexp : expandPairs st.devices (q :: rest) =
        expandHead st.devices q ++ expandPairs st.devices rest := by
      simp [expandPairs]
    rw [hexp, List.map_append, List.mem_append] at hx
    push_neg at hx
    obtain ⟨hx1, hx2⟩ := hx
    have hstatic : (sceneStep now st q).devices.map staticView =
        st.devices.map staticView := sceneStep_static now st q
    have hnd1 : ((sceneStep now st q).devices.map Device.name).Nodup := by
      rw [names_of_static hstatic]; exact hnd
    have hx2b : x ∉ (expandPairs (sceneStep now st q).devices rest).map Prod.fst := by
      rw [expandPairs_congr hstatic rest]; exact hx2
    obtain ⟨d1, hd1, hd1x, hstate⟩ := ih (sceneStep now st q) x hnd1 hx2b d hd hdx
    obtain ⟨d0, hd0, hd0x, hstate0⟩ := sceneStep_frame now st q x hnd hx1 d1 hd1 hd1x
    exact ⟨d0, hd0, hd0x, hstate.trans hstate0⟩

lemma scene_fold_post (now : Nat) :
    ∀ (pairs : List (String × Bool)) (st : AState),
      (st.devices.map Device.name).Nodup →
      ((expandPairs st.devices pairs).map Prod.fst).Nodup →
      ∀ p ∈ expandPairs st.devices pairs,
        ∀ d ∈ (pairs.foldl (sceneStep now) st).devices, d.name = p.1 → d.state = p.2 := by
  intro pairs
  induction pairs with
  | nil => intro st _ _ p hp; simp [expandPairs] at hp
  | cons q rest ih =>
    intro st hnd hkeys p hp d hd hdn
    have hexp : expandPairs st.devices (q :: rest) =
        expandHead st.devices q ++ expandPairs st.devices rest := by
      simp [expandPairs]
    rw [hexp] at hp
    rw [hexp, List.map_append, List.nodup_append] at hkeys
    obtain ⟨hk1, hk2, hdisj⟩ := hkeys
    rw [List.foldl_cons] at hd
    have hstatic : (sceneStep now st q).devices.map staticView =
        st.devices.map staticView := sceneStep_static now st q
    have hnd1 : ((sceneStep now st q).devices.map Device.name).Nodup := by
      rw [names_of_static hstatic]; exact hnd
    rcases List.mem_append.mp hp with hph | hpr
    · have hnotrest : p.1 ∉ (expandPairs st.devices rest).map Prod.fst :=
        fun hmem => hdisj (List.mem_map_of_mem Prod.fst hph) hmem
      have hnotrest1 : p.1 ∉ (expandPairs (sceneStep now st q).devices rest).map Prod.fst := by
        rw [expandPairs_congr hstatic rest]; exact hnotrest
      obtain ⟨d1, hd1, hd1x, hstate⟩ :=
        scene_fold_frame now rest (sceneStep now st q) p.1 hnd1 hnotrest1 d hd hdn
      rw [hstate]
      exact sceneStep_sets now st q hnd p hph d1 hd1 hd1x
    · have hpr1 : p ∈ expandPairs (sceneStep now st q).devices rest := by
        rw [expandPairs_congr hstatic rest]; exact hpr
      have hk2b : ((expandPairs (sceneStep now st q).devices rest).map Prod.fst).Nodup := by
        rw [expandPairs_congr hstatic rest]; exact hk2
      exact ih (sceneStep now st q) hnd1 hk2b p hpr1 d hd hdn

/-- Claim C6: activating an unregistered scene returns an error report that
lists every registered scene name and changes nothing at all; activating a
registered scene applies every device-to-state pair of the scene — with the
`all_lights` token expanded to every light-type device — and returns a report
carrying the scene's description. -/
theorem activate_scene_spec :
    (∀ (name : String) (now : Nat) (s : AState),
        scenes.find? (fun sc => decide (sc.name = name)) = none →
        activateScene name now s =
          ("Unknown scene. Available: " ++ joinComma (scenes.map Scene.name), s))
    ∧ (∀ (name : String) (sc : Scene) (now : Nat) (s : AState),
        scenes.find? (fun sc => decide (sc.name = name)) = some sc →
        (s.devices.map Device.name).Nodup →
        ((expandPairs s.devices sc.devices).map Prod.fst).Nodup →
        (activateScene name now s).1 =
          "Scene " ++ squote ++ name ++ squote ++ " activated: " ++ sc.description
        ∧ ∀ p ∈ expandPairs s.devices sc.devices,
            ∀ d ∈ (activateScene name now s).2.devices, d.name = p.1 → d.state = p.2) := by
  constructor
  · intro name now s hfind
    unfold activateScene
    rw [hfind]
  · intro name sc now s hfind hnd hkeys
    unfold activateScene
    rw [hfind]
    exact ⟨rfl, scene_fold_post now sc.devices s hnd hkeys⟩

/-- Witness for C6: `party_mode` is unknown (error listing all five scenes, no
change), and the registered `sleep` scene switches the bedroom light off (one
of its pairs), exercised through the theorem. -/
theorem activate_scene_spec_witness :
    activateScene "party_mode" 1 initState =
      ("Unknown scene. Available: movie_night, dinner, sleep, wake_up, away", initState)
    ∧ ∃ d ∈ (activateScene "sleep" 1 initState).2.devices,
        d.name = "bedroom_light" ∧ d.state = false := by
  constructor
  · have h := activate_scene_spec.1 "party_mode" 1 initState (by decide)
    rw [h]
    rfl
  · have h := activate_scene_spec.2 "sleep"
      ⟨"sleep",
       [("bedroom_light", false), ("bedroom_ac", true), ("living_room_light", false),
        ("kitchen_light", false), ("garden_light", false), ("security_alarm", true)],
       "Nighttime sleep mode"⟩ 1 initState (by decide) (by decide) (by decide)
    obtain ⟨d, hd, hdn⟩ :
        ∃ d ∈ (activateScene "sleep" 1 initState).2.devices, d.name = "bedroom_light" := by
      decide
    exact ⟨d, hd, hdn, h.2 ("bedroom_light", false) (by decide) d hd hdn⟩

end SmartHome
